import Mathlib

/-!
Verification of `scripts/transcribe_faster_whisper.py`.

The script parses command-line flags, resolves the compute device, loads a
speech-to-text model, transcribes one audio file, and writes the space-joined
stripped segment texts to standard output.

Strings are embedded as `List Char`.  Python's `str.strip()` is modelled over
the ASCII whitespace characters (the only whitespace appearing anywhere in the
script or its documented behavior).  The external `faster_whisper` model is an
oracle parameter: a function from the arguments the script passes to the
segments (or error) it returns.
-/

namespace Transcribe

/-- Strings of the script, embedded as lists of characters. -/
abbrev Str := List Char

/-- ASCII whitespace, as stripped by Python's `str.strip()`
(space, tab, newline, carriage return, vertical tab, form feed). -/
def pyIsSpace (c : Char) : Bool :=
  c = ' ' || c = '\t' || c = '\n' || c = '\r' || c = '\x0b' || c = '\x0c'

/-- Remove leading whitespace. -/
def lstrip (s : Str) : Str := s.dropWhile pyIsSpace

/-- Remove trailing whitespace. -/
def rstrip (s : Str) : Str := (s.reverse.dropWhile pyIsSpace).reverse

/-- Python `str.strip()`: remove leading and trailing whitespace. -/
def strip (s : Str) : Str := rstrip (lstrip s)

/-- Embedding of `" ".join(out)` from line 50: interpose a single ASCII space. -/
def joinSp : List Str → Str
  | [] => []
  | [s] => s
  | s :: t :: rest => s ++ ' ' :: joinSp (t :: rest)

/-- A transcription segment as consumed by the script: only its `text`
attribute is read, and the code guards against a `None` text with
`(seg.text or "")`, so the text is embedded as `Option Str`. -/
structure Segment where
  text : Option Str
deriving DecidableEq

/-- Embedding of `(seg.text or "")` from line 46: `None` and the empty string coalesce
to the empty string. -/
def textOrEmpty (t : Option Str) : Str := t.getD []

/-- The accumulation loop of lines 44-48: for each segment, strip its text
and append it to `out` only when non-empty. -/
def gather : List Segment → List Str → List Str
  | [], out => out
  | seg :: rest, out =>
      let text := strip (textOrEmpty seg.text)
      gather rest (if text.isEmpty then out else out ++ [text])

/-- The string the script writes to standard output (line 50):
`" ".join(out).strip()` applied to the gathered texts. -/
def scriptOutput (segs : List Segment) : Str :=
  strip (joinSp (gather segs []))

/-- Modelled from the spec's words (for the refinement claim): each segment
text stripped, empty results discarded, the rest joined by a single space. -/
def specAssemble (segs : List Segment) : Str :=
  joinSp ((segs.map (fun s => strip (textOrEmpty s.text))).filter
    (fun t => !t.isEmpty))

/-- The parsed configuration (the fields of `argparse`'s result object). -/
structure Config where
  model : Str
  device : Str
  compute_type : Str
  language : Option Str
  beam_size : Int
  vad_filter : Bool
  no_speech_threshold : Rat
  log_prob_threshold : Rat
  compression_ratio_threshold : Rat
  prompt : Option Str
  file : Str
deriving DecidableEq

/-- The parser defaults of lines 9-24. -/
def defaults : Config where
  model := "small".toList
  device := "cpu".toList
  compute_type := "int8".toList
  language := none
  beam_size := 1
  vad_filter := true
  no_speech_threshold := 0.6
  log_prob_threshold := -1.0
  compression_ratio_threshold := 2.4
  prompt := none
  file := []

/-- Digits-only decimal reading ( `int(s)` for a non-negative literal). -/
def parseNatDigits (s : Str) : Option Nat :=
  if s = [] then none
  else if s.all Char.isDigit then
    some (s.foldl (fun a c => a * 10 + (c.toNat - '0'.toNat)) 0)
  else none

/-- The `argparse` `type=int` conversion (the plain decimal forms of `int()`). -/
def parseInt? (s : Str) : Option Int :=
  match s with
  | '-' :: rest => (parseNatDigits rest).map (fun n => -(n : Int))
  | '+' :: rest => (parseNatDigits rest).map (fun n => (n : Int))
  | _ => (parseNatDigits s).map (fun n => (n : Int))

/-- Unsigned decimal with optional fractional part, as an exact rational. -/
def parseFracCore (s : Str) : Option Rat :=
  let intp := s.takeWhile (fun c => c != '.')
  let rest := s.dropWhile (fun c => c != '.')
  let digitsVal : Str → Nat := fun l =>
    l.foldl (fun a c => a * 10 + (c.toNat - '0'.toNat)) 0
  match rest with
  | [] => (parseNatDigits intp).map (fun n => (n : Rat))
  | _ :: frac =>
      if intp.all Char.isDigit ∧ frac.all Char.isDigit ∧
          (intp ≠ [] ∨ frac ≠ []) then
        some ((digitsVal intp : Rat) + (digitsVal frac : Rat) / (10 ^ frac.length))
      else none

/-- The `argparse` `type=float` conversion, modelled on the plain decimal subset
of Python `float()` (the forms a threshold flag would carry). -/
def parseFloat? (s : Str) : Option Rat :=
  match s with
  | '-' :: rest => (parseFracCore rest).map (fun q => -q)
  | '+' :: rest => parseFracCore rest
  | _ => parseFracCore s

/-- The value-taking optional arguments of the parser (lines 9-22);
`--vad_filter` is handled separately since `store_true` takes no value. -/
inductive OptKind where
  | model | device | computeType | language | beamSize
  | noSpeech | logProb | compressThresh | prompt
deriving DecidableEq

/-- Option-string table of the parser. -/
def optionTable : List (Str × OptKind) :=
  [("--model".toList, .model), ("--device".toList, .device),
   ("--compute_type".toList, .computeType), ("--language".toList, .language),
   ("--beam_size".toList, .beamSize),
   ("--no_speech_threshold".toList, .noSpeech),
   ("--log_prob_threshold".toList, .logProb),
   ("--compression_ratio_threshold".toList, .compressThresh),
   ("--prompt".toList, .prompt)]

/-- Look a token up among the declared value-taking options. -/
def matchOption (t : Str) : Option OptKind :=
  (optionTable.find? (fun e => e.1 == t)).map (fun e => e.2)

/-- How `argparse` tests for an optional-looking token: it starts with `-` and is
not a bare `-` or a negative-number-like token (this parser declares no
single-dash options, so those are treated as positionals). -/
def looksLikeOption (t : Str) : Bool :=
  match t with
  | '-' :: c :: _ => !c.isDigit
  | _ => false

/-- Store a value-taking option's converted value into the configuration,
rejecting values outside `choices` (line 10) or failing conversion. -/
def applyOpt (cfg : Config) (k : OptKind) (v : Str) : Option Config :=
  match k with
  | .model => some { cfg with model := v }
  | .device =>
      if v = "cpu".toList ∨ v = "cuda".toList ∨ v = "auto".toList then
        some { cfg with device := v }
      else none
  | .computeType => some { cfg with compute_type := v }
  | .language => some { cfg with language := some v }
  | .beamSize => (parseInt? v).map (fun n => { cfg with beam_size := n })
  | .noSpeech =>
      (parseFloat? v).map (fun x => { cfg with no_speech_threshold := x })
  | .logProb =>
      (parseFloat? v).map (fun x => { cfg with log_prob_threshold := x })
  | .compressThresh =>
      (parseFloat? v).map (fun x => { cfg with compression_ratio_threshold := x })
  | .prompt => some { cfg with prompt := some v }

/-- The `argparse` loop for this parser (space-separated option values, one
required positional `file`); `none` is a parse error (non-zero exit).
`pending` is a value-taking option still waiting for its argument. -/
def parseLoop : List Str → Config → Option Str → Option OptKind → Option Config
  | [], cfg, pos, pending =>
      match pending, pos with
      | some _, _ => none
      | none, some f => some { cfg with file := f }
      | none, none => none
  | t :: rest, cfg, pos, pending =>
      match pending with
      | some k =>
          match applyOpt cfg k t with
          | some cfg2 => parseLoop rest cfg2 pos none
          | none => none
      | none =>
          if t = "--vad_filter".toList then
            parseLoop rest { cfg with vad_filter := true } pos none
          else
            match matchOption t with
            | some k => parseLoop rest cfg pos (some k)
            | none =>
                if looksLikeOption t then none
                else
                  match pos with
                  | none => parseLoop rest cfg (some t) none
                  | some _ => none

/-- Embedding of `ap.parse_args()` (line 25) on a command line. -/
def parseArgs (argv : List Str) : Option Config :=
  parseLoop argv defaults none none

/-- Lines 27-29: copy `args.device` into a local variable and rewrite
`"auto"` to `"cuda"` unconditionally. -/
def resolveDevice (d : Str) : Str :=
  if d = "auto".toList then "cuda".toList else d

/-- The state after lines 27-29: the parsed `args` object (untouched) and the
local `device` variable. -/
def resolveLocal (args : Config) : Config × Str :=
  (args, resolveDevice args.device)

/-- The arguments of the `WhisperModel(...)` constructor call (line 31). -/
structure LoadArgs where
  model : Str
  device : Str
  compute_type : Str
deriving DecidableEq

/-- Line 31: `WhisperModel(args.model, device=device, compute_type=args.compute_type)`. -/
def loadArgs (cfg : Config) : LoadArgs :=
  { model := (resolveLocal cfg).1.model
    device := (resolveLocal cfg).2
    compute_type := (resolveLocal cfg).1.compute_type }

/-- The arguments of the `model.transcribe(...)` call (lines 33-42). -/
structure TranscribeCall where
  file : Str
  language : Option Str
  beam_size : Int
  vad_filter : Bool
  no_speech_threshold : Rat
  log_prob_threshold : Rat
  compression_ratio_threshold : Rat
  initial_prompt : Option Str
deriving DecidableEq

/-- Lines 33-42: every keyword argument comes straight from `args`. -/
def transcribeArgs (cfg : Config) : TranscribeCall :=
  { file := cfg.file
    language := cfg.language
    beam_size := cfg.beam_size
    vad_filter := cfg.vad_filter
    no_speech_threshold := cfg.no_speech_threshold
    log_prob_threshold := cfg.log_prob_threshold
    compression_ratio_threshold := cfg.compression_ratio_threshold
    initial_prompt := cfg.prompt }

/-- Errors raised by the external library (uncaught by the script). -/
abbrev Err := Str

/-- Process exit status: 0 on success, non-zero when an uncaught error
terminates the interpreter. -/
def exitCode (r : Except Err Unit) : Nat :=
  match r with
  | .ok _ => 0
  | .error _ => 1

/-- What the script does with the result of the transcribe call: on success
the single write of line 50, on an uncaught error no output at all. -/
def writePhase (r : Except Err (List Segment)) : Except Err Unit × List Str :=
  match r with
  | .error e => (.error e, [])
  | .ok segs => (.ok (), [scriptOutput segs])

/-- The body of `main` after argument parsing (lines 31-50), with the
external library as oracles: `loadO` models the `WhisperModel` constructor,
`transO` the `transcribe` call.  Returns the process result and the list of
strings the script wrote to standard output.  The script installs no
handler, so an oracle error propagates and nothing is written. -/
def runProc {M : Type} (cfg : Config) (loadO : LoadArgs → Except Err M)
    (transO : M → TranscribeCall → Except Err (List Segment)) :
    Except Err Unit × List Str :=
  match loadO (loadArgs cfg) with
  | .error e => (.error e, [])
  | .ok m => writePhase (transO m (transcribeArgs cfg))

/-- Observable events of the output phase: pulling one segment from the lazy
sequence, or writing a string to standard output. -/
inductive Event where
  | next
  | write (s : Str)
deriving DecidableEq

/-- Lines 44-48 instrumented with events: each loop iteration first pulls a
segment from the lazy sequence, then accumulates its stripped text. -/
def loopTrace : List Segment → List Str → List Event × List Str
  | [], out => ([], out)
  | seg :: rest, out =>
      let text := strip (textOrEmpty seg.text)
      let r := loopTrace rest (if text.isEmpty then out else out ++ [text])
      (Event.next :: r.1, r.2)

/-- The full event trace of the output phase (lines 44-50): the loop's events
followed by the single `sys.stdout.write`. -/
def mainTrace (segs : List Segment) : List Event :=
  let r := loopTrace segs []
  r.1 ++ [Event.write (strip (joinSp r.2))]

/-! ### Properties of stripping and joining -/

/-- A string has no leading whitespace. -/
def noLead (s : Str) : Bool :=
  match s with
  | [] => true
  | c :: _ => !pyIsSpace c

/-- A string has no trailing whitespace. -/
def noTrail (s : Str) : Bool := noLead s.reverse

theorem noLead_dropWhile (s : Str) : noLead (s.dropWhile pyIsSpace) = true := by
  induction s with
  | nil => rfl
  | cons c t ih =>
    rw [List.dropWhile_cons]
    split
    · exact ih
    · next h => simp [noLead, Bool.not_eq_true] at h ⊢; simp [h]

theorem dropWhile_eq_of_noLead {s : Str} (h : noLead s = true) :
    s.dropWhile pyIsSpace = s := by
  cases s with
  | nil => rfl
  | cons c t =>
    have hc : pyIsSpace c = false := by simpa [noLead] using h
    simp [List.dropWhile_cons, hc]

theorem noLead_append {a : Str} (b : Str) (h : a ≠ []) :
    noLead (a ++ b) = noLead a := by
  cases a with
  | nil => exact absurd rfl h
  | cons c t => rfl

theorem strip_noTrail (s : Str) : noTrail (strip s) = true := by
  unfold noTrail strip rstrip lstrip
  rw [List.reverse_reverse]
  exact noLead_dropWhile _

theorem strip_noLead (s : Str) : noLead (strip s) = true := by
  unfold strip rstrip lstrip
  set v := s.dropWhile pyIsSpace with hv
  set w := v.reverse.dropWhile pyIsSpace with hw
  by_cases hnil : w.reverse = []
  · rw [hnil]; rfl
  · have hsplit : v.reverse.takeWhile pyIsSpace ++ w = v.reverse :=
      List.takeWhile_append_dropWhile pyIsSpace v.reverse
    have hv2 : v = w.reverse ++ (v.reverse.takeWhile pyIsSpace).reverse := by
      have h2 := congrArg List.reverse hsplit
      rw [List.reverse_append, List.reverse_reverse] at h2
      exact h2.symm
    have h1 : noLead v = true := noLead_dropWhile s
    rw [hv2, noLead_append _ hnil] at h1
    exact h1

theorem strip_eq_self {s : Str} (h1 : noLead s = true) (h2 : noTrail s = true) :
    strip s = s := by
  unfold strip rstrip lstrip
  rw [dropWhile_eq_of_noLead h1, dropWhile_eq_of_noLead h2,
    List.reverse_reverse]

theorem joinSp_ne_nil {t : Str} (rest : List Str) (h : t ≠ []) :
    joinSp (t :: rest) ≠ [] := by
  cases rest with
  | nil => simpa [joinSp] using h
  | cons r rs => simp [joinSp]

theorem noLead_joinSp {l : List Str}
    (h : ∀ t ∈ l, t ≠ [] ∧ noLead t = true) : noLead (joinSp l) = true := by
  match l with
  | [] => rfl
  | [t] => exact (h t (by simp)).2
  | t :: r :: rs =>
    have ht := h t (by simp)
    rw [joinSp, noLead_append _ ht.1]
    exact ht.2

theorem noTrail_joinSp {l : List Str}
    (h : ∀ t ∈ l, t ≠ [] ∧ noTrail t = true) : noTrail (joinSp l) = true := by
  induction l with
  | nil => rfl
  | cons t rest ih =>
    cases rest with
    | nil => exact (h t (by simp)).2
    | cons r rs =>
      have hj : joinSp (t :: r :: rs) = t ++ ' ' :: joinSp (r :: rs) := rfl
      rw [hj]
      unfold noTrail
      rw [List.reverse_append, List.reverse_cons, List.append_assoc]
      have hjne : joinSp (r :: rs) ≠ [] := joinSp_ne_nil rs (h r (by simp)).1
      have hrev : (joinSp (r :: rs)).reverse ≠ [] := by simpa using hjne
      rw [noLead_append _ hrev]
      exact ih (fun u hu => h u (List.mem_cons_of_mem _ hu))

theorem strip_joinSp {l : List Str}
    (h : ∀ t ∈ l, t ≠ [] ∧ noLead t = true ∧ noTrail t = true) :
    strip (joinSp l) = joinSp l :=
  strip_eq_self (noLead_joinSp (fun t ht => ⟨(h t ht).1, (h t ht).2.1⟩))
    (noTrail_joinSp (fun t ht => ⟨(h t ht).1, (h t ht).2.2⟩))

/-- The texts the loop retains: stripped segment texts, empties dropped. -/
def keptTexts (segs : List Segment) : List Str :=
  (segs.map (fun s => strip (textOrEmpty s.text))).filter (fun t => !t.isEmpty)

theorem gather_eq (segs : List Segment) :
    ∀ out, gather segs out = out ++ keptTexts segs := by
  induction segs with
  | nil => intro out; simp [gather, keptTexts]
  | cons s rest ih =>
    intro out
    rcases Bool.eq_false_or_eq_true (strip (textOrEmpty s.text)).isEmpty with
      hemp | hemp
    · simp [gather, keptTexts, List.filter_cons, hemp, ih, List.append_assoc]
    · simp [gather, keptTexts, List.filter_cons, hemp, ih]

theorem keptTexts_mem {segs : List Segment} {t : Str} (ht : t ∈ keptTexts segs) :
    t ≠ [] ∧ noLead t = true ∧ noTrail t = true := by
  unfold keptTexts at ht
  have h1 := List.of_mem_filter ht
  have h2 := List.mem_of_mem_filter ht
  obtain ⟨s, _, rfl⟩ := List.mem_map.mp h2
  refine ⟨?_, strip_noLead _, strip_noTrail _⟩
  intro hnil
  rw [hnil] at h1
  simp at h1

theorem scriptOutput_eq (segs : List Segment) :
    scriptOutput segs = joinSp (keptTexts segs) := by
  unfold scriptOutput
  rw [gather_eq segs []]
  simp only [List.nil_append]
  exact strip_joinSp (fun t ht => keptTexts_mem ht)

/-! ### Claims -/

/-- C1: the string written to standard output equals the segments' texts each
stripped of leading/trailing whitespace, empty results discarded, joined in
sequence order by a single ASCII space; in particular texts
`["  ", "hello", "", "world"]` produce exactly `"hello world"`, and
`["foo"], ["bar"]` produce `"foo bar"`. -/
theorem output_is_stripped_nonempty_join :
    (∀ segs : List Segment, scriptOutput segs = specAssemble segs) ∧
    scriptOutput [⟨some "  ".toList⟩, ⟨some "hello".toList⟩,
      ⟨some "".toList⟩, ⟨some "world".toList⟩] = "hello world".toList ∧
    scriptOutput [⟨some "foo".toList⟩, ⟨some "bar".toList⟩] =
      "foo bar".toList := by
  refine ⟨fun segs => ?_, by decide, by decide⟩
  rw [scriptOutput_eq]
  rfl

/-- C4: the written string is a fixed point of `strip`: it never has leading
or trailing whitespace. -/
theorem output_strip_fixpoint :
    ∀ segs : List Segment, strip (scriptOutput segs) = scriptOutput segs := by
  intro segs
  rw [scriptOutput_eq]
  exact strip_joinSp (fun t ht => keptTexts_mem ht)

/-- C10: a segment whose `text` is `None` does not make output assembly fail:
`(seg.text or "")` coerces it to the empty string, the segment is excluded,
and the remaining segments are joined as usual. -/
theorem none_text_excluded :
    (∀ pre post : List Segment,
      scriptOutput (pre ++ ⟨none⟩ :: post) = scriptOutput (pre ++ post)) ∧
    scriptOutput [⟨none⟩] = [] := by
  constructor
  · intro pre post
    rw [scriptOutput_eq, scriptOutput_eq]
    have hk : keptTexts (pre ++ ⟨none⟩ :: post) = keptTexts (pre ++ post) := by
      unfold keptTexts
      simp [List.filter_cons, textOrEmpty, strip, rstrip, lstrip]
    rw [hk]
  · decide

/-! ### Parser invariants -/

theorem applyOpt_vad {cfg cfg2 : Config} {k : OptKind} {v : Str}
    (h : applyOpt cfg k v = some cfg2) : cfg2.vad_filter = cfg.vad_filter := by
  cases k with
  | model => simp only [applyOpt, Option.some.injEq] at h; rw [← h]
  | device =>
      simp only [applyOpt] at h
      split at h
      · simp only [Option.some.injEq] at h; rw [← h]
      · exact Option.noConfusion h
  | computeType => simp only [applyOpt, Option.some.injEq] at h; rw [← h]
  | language => simp only [applyOpt, Option.some.injEq] at h; rw [← h]
  | beamSize =>
      simp only [applyOpt, Option.map_eq_some'] at h
      obtain ⟨n, -, h2⟩ := h; rw [← h2]
  | noSpeech =>
      simp only [applyOpt, Option.map_eq_some'] at h
      obtain ⟨x, -, h2⟩ := h; rw [← h2]
  | logProb =>
      simp only [applyOpt, Option.map_eq_some'] at h
      obtain ⟨x, -, h2⟩ := h; rw [← h2]
  | compressThresh =>
      simp only [applyOpt, Option.map_eq_some'] at h
      obtain ⟨x, -, h2⟩ := h; rw [← h2]
  | prompt => simp only [applyOpt, Option.some.injEq] at h; rw [← h]

theorem parseLoop_vad : ∀ (argv : List Str) (cfg : Config) (pos : Option Str)
    (pending : Option OptKind) (out : Config), cfg.vad_filter = true →
    parseLoop argv cfg pos pending = some out → out.vad_filter = true := by
  intro argv
  induction argv with
  | nil =>
    intro cfg pos pending out h hp
    simp only [parseLoop] at hp
    split at hp
    · exact Option.noConfusion hp
    · have hout := Option.some.inj hp
      rw [← hout]; exact h
    · exact Option.noConfusion hp
  | cons t rest ih =>
    intro cfg pos pending out h hp
    simp only [parseLoop] at hp
    split at hp
    · split at hp
      · next cfg2 ha => exact ih _ _ _ _ ((applyOpt_vad ha).trans h) hp
      · exact Option.noConfusion hp
    · split at hp
      · exact ih _ _ _ _ rfl hp
      · split at hp
        · exact ih _ _ _ _ h hp
        · split at hp
          · exact Option.noConfusion hp
          · split at hp
            · exact ih _ _ _ _ h hp
            · exact Option.noConfusion hp

theorem looksLikeOption_of_matchOption {f : Str} {k : OptKind}
    (h : matchOption f = some k) : looksLikeOption f = true := by
  unfold matchOption at h
  obtain ⟨e, he, -⟩ := Option.map_eq_some'.mp h
  have hf : e.1 = f := by
    have hb := List.find?_some he
    simpa using hb
  have hm := List.mem_of_find?_eq_some he
  have hall : ∀ x ∈ optionTable, looksLikeOption x.1 = true := by decide
  rw [← hf]
  exact hall e hm

/-! ### Claims about parsing, device resolution and the run -/

/-- C2: every command line the parser accepts, with or without the
`--vad_filter` flag, yields `vad_filter = true`, and `true` is the value the
`transcribe` call receives: voice-activity filtering cannot be disabled. -/
theorem vad_filter_always_true :
    ∀ (argv : List Str) (cfg : Config), parseArgs argv = some cfg →
      cfg.vad_filter = true ∧ (transcribeArgs cfg).vad_filter = true := by
  intro argv cfg h
  have hv := parseLoop_vad argv defaults none none cfg rfl h
  exact ⟨hv, hv⟩

/-- The configuration parsed from the command line `["a.wav"]`. -/
def cfgNoFlags : Config := { defaults with file := "a.wav".toList }

/-- Witness for C2 at the concrete command line `--vad_filter a.wav`. -/
theorem vad_filter_always_true_witness :
    cfgNoFlags.vad_filter = true ∧
      (transcribeArgs cfgNoFlags).vad_filter = true :=
  vad_filter_always_true ["--vad_filter".toList, "a.wav".toList] cfgNoFlags
    rfl

/-- C3: `"auto"` resolves to `"cuda"` unconditionally, `"cpu"` and `"cuda"`
are unchanged, and a run configured with device `"auto"` is observationally
equivalent to the same run configured with `"cuda"`. -/
theorem auto_equals_cuda :
    resolveDevice "auto".toList = "cuda".toList ∧
    resolveDevice "cpu".toList = "cpu".toList ∧
    resolveDevice "cuda".toList = "cuda".toList ∧
    (∀ (M : Type) (cfg : Config) (loadO : LoadArgs → Except Err M)
      (transO : M → TranscribeCall → Except Err (List Segment)),
      runProc { cfg with device := "auto".toList } loadO transO =
        runProc { cfg with device := "cuda".toList } loadO transO) := by
  refine ⟨by decide, by decide, by decide, ?_⟩
  intro M cfg loadO transO
  have hd : resolveDevice "auto".toList = resolveDevice "cuda".toList := by
    decide
  have hl : loadArgs { cfg with device := "auto".toList } =
      loadArgs { cfg with device := "cuda".toList } := by
    show LoadArgs.mk cfg.model (resolveDevice "auto".toList) cfg.compute_type =
      LoadArgs.mk cfg.model (resolveDevice "cuda".toList) cfg.compute_type
    rw [hd]
  have ht : transcribeArgs { cfg with device := "auto".toList } =
      transcribeArgs { cfg with device := "cuda".toList } := rfl
  unfold runProc
  rw [hl, ht]

/-- C9: the parsed configuration is never mutated after parsing: lines 27-29
leave the `args` object untouched (the auto→cuda rewrite lands only in the
local `device` variable, even when the parsed device is `"auto"`), and the
transcribe call reads the original fields. -/
theorem config_not_mutated :
    ∀ cfg : Config,
      (resolveLocal cfg).1 = cfg ∧
      (resolveLocal cfg).1.device = cfg.device ∧
      (resolveLocal cfg).2 = resolveDevice cfg.device ∧
      transcribeArgs (resolveLocal cfg).1 = transcribeArgs cfg ∧
      (resolveLocal { cfg with device := "auto".toList }).2 = "cuda".toList ∧
      (resolveLocal { cfg with device := "auto".toList }).1.device =
        "auto".toList := by
  intro cfg
  refine ⟨rfl, rfl, rfl, rfl, ?_, rfl⟩
  simp [resolveLocal, resolveDevice]

/-- C7: determinism — for a fixed configuration, two runs whose model
oracles agree at the arguments the script passes produce identical results,
in particular identical standard output. -/
theorem run_deterministic :
    ∀ (M : Type) (cfg : Config) (l1 l2 : LoadArgs → Except Err M)
      (t1 t2 : M → TranscribeCall → Except Err (List Segment)),
      l1 (loadArgs cfg) = l2 (loadArgs cfg) →
      (∀ m, t1 m (transcribeArgs cfg) = t2 m (transcribeArgs cfg)) →
      runProc cfg l1 t1 = runProc cfg l2 t2 := by
  intro M cfg l1 l2 t1 t2 hl ht
  unfold runProc
  rw [hl]
  cases l2 (loadArgs cfg) with
  | error e => rfl
  | ok m =>
    show writePhase (t1 m (transcribeArgs cfg)) =
      writePhase (t2 m (transcribeArgs cfg))
    rw [ht m]

/-- Witness for C7 with concrete agreeing oracles. -/
theorem run_deterministic_witness :
    runProc defaults (fun _ => Except.ok ())
        (fun _ _ => Except.ok ([⟨some "hi".toList⟩] : List Segment)) =
      runProc defaults (fun _ => Except.ok ())
        (fun _ _ => Except.ok ([⟨some "hi".toList⟩] : List Segment)) :=
  run_deterministic Unit defaults _ _ _ _ rfl (fun _ => rfl)

/-- C6: an error raised by model loading or transcription (e.g. a missing
input file) propagates uncaught: the process result is that error, the exit
status is non-zero, and nothing is written to standard output. -/
theorem errors_propagate_no_output :
    ∀ (M : Type) (cfg : Config) (loadO : LoadArgs → Except Err M)
      (transO : M → TranscribeCall → Except Err (List Segment)) (e : Err),
      (loadO (loadArgs cfg) = .error e ∨
        (∃ m, loadO (loadArgs cfg) = .ok m ∧
          transO m (transcribeArgs cfg) = .error e)) →
      (runProc cfg loadO transO).1 = .error e ∧
      exitCode (runProc cfg loadO transO).1 ≠ 0 ∧
      (runProc cfg loadO transO).2 = [] := by
  intro M cfg loadO transO e h
  have hr : runProc cfg loadO transO = (.error e, []) := by
    rcases h with h | ⟨m, hm, htr⟩
    · unfold runProc; rw [h]
    · unfold runProc
      rw [hm]
      show writePhase (transO m (transcribeArgs cfg)) = (.error e, [])
      rw [htr]
      rfl
  rw [hr]
  exact ⟨rfl, by simp [exitCode], rfl⟩

/-- Witness for C6: a loader that fails (missing file / no such device). -/
theorem errors_propagate_no_output_witness :
    (runProc defaults
        ((fun _ => Except.error "file not found".toList) :
          LoadArgs → Except Err Unit)
        (fun _ _ => Except.ok [])).1 = Except.error "file not found".toList ∧
    exitCode (runProc defaults
        ((fun _ => Except.error "file not found".toList) :
          LoadArgs → Except Err Unit)
        (fun _ _ => Except.ok [])).1 ≠ 0 ∧
    (runProc defaults
        ((fun _ => Except.error "file not found".toList) :
          LoadArgs → Except Err Unit)
        (fun _ _ => Except.ok [])).2 = [] :=
  errors_propagate_no_output Unit defaults _ _ _ (Or.inl rfl)

theorem loopTrace_spec (segs : List Segment) :
    ∀ out, loopTrace segs out =
      (List.replicate segs.length Event.next, gather segs out) := by
  induction segs with
  | nil => intro out; rfl
  | cons s rest ih =>
    intro out
    simp [loopTrace, gather, ih, List.replicate_succ]

/-- C8: nothing reaches standard output before the lazy segment sequence is
fully consumed: the event trace is one read per segment followed by exactly
one write, whose payload is the final output. -/
theorem write_after_full_consumption :
    ∀ segs : List Segment, mainTrace segs =
      List.replicate segs.length Event.next ++
        [Event.write (scriptOutput segs)] := by
  intro segs
  unfold mainTrace
  rw [loopTrace_spec segs []]
  rfl

/-- C5: a command line carrying only the positional file argument parses to
the documented defaults, and the loader and transcribe calls receive exactly
those defaults (model "small", device "cpu", compute_type "int8", language
`None` i.e. auto-detect, beam_size 1, vad_filter true, thresholds 0.6 /
-1.0 / 2.4, prompt `None`). -/
theorem defaults_passed_when_flags_omitted :
    ∀ f : Str, looksLikeOption f = false →
      parseArgs [f] = some { defaults with file := f } ∧
      loadArgs { defaults with file := f } =
        { model := "small".toList, device := "cpu".toList,
          compute_type := "int8".toList } ∧
      transcribeArgs { defaults with file := f } =
        { file := f, language := none, beam_size := 1, vad_filter := true,
          no_speech_threshold := 0.6, log_prob_threshold := -1.0,
          compression_ratio_threshold := 2.4, initial_prompt := none } := by
  intro f hf
  refine ⟨?_, rfl, rfl⟩
  have hvad : ¬(f = ['-', '-', 'v', 'a', 'd', '_', 'f', 'i', 'l', 't',
      'e', 'r']) := by
    intro h
    rw [h] at hf
    exact absurd hf (by decide)
  have hmatch : matchOption f = none := by
    cases h : matchOption f with
    | none => rfl
    | some k =>
      have hl := looksLikeOption_of_matchOption h
      rw [hf] at hl
      exact Bool.noConfusion hl
  simp [parseArgs, parseLoop, hvad, hmatch, hf]

/-- Witness for C5 at the concrete command line `audio.wav`. -/
theorem defaults_passed_witness :
    parseArgs ["audio.wav".toList] =
        some { defaults with file := "audio.wav".toList } ∧
      loadArgs { defaults with file := "audio.wav".toList } =
        { model := "small".toList, device := "cpu".toList,
          compute_type := "int8".toList } ∧
      transcribeArgs { defaults with file := "audio.wav".toList } =
        { file := "audio.wav".toList, language := none, beam_size := 1,
          vad_filter := true, no_speech_threshold := 0.6,
          log_prob_threshold := -1.0, compression_ratio_threshold := 2.4,
          initial_prompt := none } :=
  defaults_passed_when_flags_omitted "audio.wav".toList (by decide)

end Transcribe
